import Mathlib

/-!
Verification of `bj-web/format-web-templates.py`: a recursive copier that
mirrors an input tree into an output tree, copying binary files byte for
byte and performing literal marker substitution in text files.

Strings are modelled as `List Char`; `pyReplace` models Python
`str.replace` (all non-overlapping occurrences, scanned left to right,
inserted text not rescanned); failing code paths are modelled with
`Option`; the `git` subprocess calls are modelled by an oracle `Git`
giving the captured stdout of each query.
-/

namespace BJWeb

set_option maxRecDepth 100000

/-- Model of Python `str.replace(old, new)` restricted by a fuel argument so
that it is structurally recursive; `pyReplace` instantiates the fuel with the
length of the string, which is always enough. On a match the scan continues
after the matched occurrence in the original string, so inserted text is
never rescanned, exactly as in CPython. -/
def pyReplaceAux (old new : List Char) : Nat → List Char → List Char
  | _, [] => if old = [] then new else []
  | 0, _ :: _ => []
  | fuel + 1, c :: rest =>
    if old = [] then new ++ c :: pyReplaceAux old new fuel rest
    else if old.isPrefixOf (c :: rest) then
      new ++ pyReplaceAux old new fuel ((c :: rest).drop old.length)
    else c :: pyReplaceAux old new fuel rest

/-- Model of Python `s.replace(old, new)`. -/
def pyReplace (s old new : List Char) : List Char :=
  pyReplaceAux old new s.length s

/-- Model of Python `str.strip()` (both-ends whitespace strip). -/
def pyStrip (s : List Char) : List Char :=
  ((s.dropWhile Char.isWhitespace).reverse.dropWhile Char.isWhitespace).reverse

/-- The literal marker replaced by the navigation bar (line 95 of the source). -/
def NAV_MARKER : List Char := "<!-- BJ_TMPL_NAV_BAR -->".toList

/-- The literal marker replaced by the version string (line 96 of the source). -/
def VER_MARKER : List Char := "<!-- BJ_TMPL_VERSION -->".toList

/-- The literal marker replaced by the analytics fragment (line 97 of the source). -/
def GOOG_MARKER : List Char := "<!-- GOOGLE_SHIT -->".toList

/-- The navigation-bar HTML fragment returned by `get_nav_bar`. -/
def get_nav_bar : List Char :=
  ("\n<nav>\n<a href=\x27index.html\x27><img alt=\"BJ logo\" id=logo src=\"static/logo.png\" /></a>\n<ul>\n<li><a href=\x27index.html\x27>Game</a></li>\n<li><a href=\x27custom-card.html\x27>Customize</a></li>\n</ul>\n</nav>\n").toList

/-- The analytics/ads fragment returned by `get_google_shit`. -/
def get_google_shit : List Char :=
  ("\n  <!-- Global site tag (gtag.js) - Google Analytics -->\n  <script async src=\"https://www.googletagmanager.com/gtag/js?id=UA-160379782-1\"></script>\n  <script>\n    window.dataLayer = window.dataLayer || [];\n    function gtag()\x7bdataLayer.push(arguments);\x7d\n    gtag(\x27js\x27, new Date());\n\n    gtag(\x27config\x27, \x27UA-160379782-1\x27);\n  </script>\n  <script data-ad-client=\"ca-pub-3834375319956666\" async src=\"https://pagead2.googlesyndication.com/pagead/js/adsbygoogle.js\"></script>\n").toList

/-- Oracle for the two `subprocess.run` git queries: the captured stdout of
`git rev-parse --short HEAD`, and the captured stdout of
`git show -s --format=%cd --date=format:%Y-%m-%d <commit>` as a function of
the commit argument. A failed query is the oracle returning an empty list,
since `capture_output=True` without `check=True` yields empty stdout. -/
structure Git where
  revParse : List Char
  showDate : List Char → List Char

/-- Process state: the module-level `VERSION_STR` cache. -/
structure PState where
  version : Option (List Char)
deriving DecidableEq

/-- State at process start: `VERSION_STR = None`. -/
def initState : PState := ⟨none⟩

/-- Model of `get_version_str`: returns the value, the new state and the
number of external git queries issued by this call. -/
def get_version_str (g : Git) (st : PState) : List Char × PState × Nat :=
  match st.version with
  | some v => (v, st, 0)
  | none =>
    let commit := pyStrip g.revParse
    let date := pyStrip (g.showDate commit)
    let v := date ++ " (".toList ++ commit ++ ")".toList
    (v, ⟨some v⟩, 2)

/-- Index of the last occurrence of `c` in `s`, or `-1`; models `str.rfind`. -/
def rfind : List Char → Char → Int
  | [], _ => -1
  | a :: rest, c =>
    let r := rfind rest c
    if r ≥ 0 then r + 1 else if a = c then 0 else -1

/-- The extension component of `os.path.splitext` for POSIX paths: the part
from the last dot of the basename, unless the basename consists only of
leading dots up to that position. -/
def splitext_ext (p : List Char) : List Char :=
  let sepIndex := rfind p '/'
  let dotIndex := rfind p '.'
  if sepIndex < dotIndex then
    let dIN := dotIndex.toNat
    let sIN := (sepIndex + 1).toNat
    if ((p.take dIN).drop sIN).any (fun a => a != '.') then p.drop dIN else []
  else []

/-- The binary-extension allow-list `BIN_EXTS` from the source. -/
def BIN_EXTS : List (List Char) := [".wasm".toList, ".png".toList]

/-- Model of `is_binary_file`: extension membership in `BIN_EXTS`. -/
def is_binary_file (fname : List Char) : Bool :=
  BIN_EXTS.contains (splitext_ext fname)

/-- Model of `replace_prefix`; the failing `assert` is modelled by `none`. -/
def replace_prefix (s bad : List Char) (new : List Char) : Option (List Char) :=
  if bad.isPrefixOf s then some (new ++ s.drop bad.length) else none

/-- The three-substitution text pipeline of `main` (lines 95-97), with the
version string passed explicitly. -/
def processText (version s : List Char) : List Char :=
  pyReplace (pyReplace (pyReplace s NAV_MARKER get_nav_bar) VER_MARKER version)
    GOOG_MARKER get_google_shit

/-- The per-file content decision of the loop body of `main` (lines 86-98):
binary files pass through unchanged, text files are substituted. -/
def processFileContent (version fname content : List Char) : List Char :=
  if is_binary_file fname then content else processText version content

/-- The loop of `main` over the files of the input tree, given as pairs of a
path relative to the input root (with leading separator) and the content of
the file. Threads the `VERSION_STR` cache state; a failing `replace_prefix`
assertion aborts the whole run (`none`). Returns the list of writes
(absolute output path, written content). -/
def mainGo (g : Git) (input output : List Char) :
    PState → List (List Char × List Char) → Option (List (List Char × List Char))
  | _, [] => some []
  | st, (rel, content) :: rest =>
    match replace_prefix (input ++ rel) input output with
    | none => none
    | some out_fname =>
      if is_binary_file (input ++ rel) then
        (mainGo g input output st rest).map (fun ws => (out_fname, content) :: ws)
      else
        (mainGo g input output (get_version_str g st).2.1 rest).map
          (fun ws => (out_fname, processText (get_version_str g st).1 content) :: ws)

/-- A whole run of `main`, starting from the fresh `VERSION_STR = None` state. -/
def mainRun (g : Git) (input output : List Char)
    (tree : List (List Char × List Char)) : Option (List (List Char × List Char)) :=
  mainGo g input output initState tree

/-- Model of the recursive `**` wildcard of `glob` applied to the part of a
path after the `dname` prefix of the pattern: scanning characters with a
flag marking whether the scan stands at the start of a path component, any
component that begins with a dot (hidden entry) makes the whole path
unmatched, and otherwise the path is matched. This is how
`iglob` with `recursive=True` treats hidden files and hidden directories at
every depth. -/
def glob_match : List Char → Bool → Bool
  | [], _ => true
  | c :: rest, atStart =>
    if atStart && (c == '.') then false else glob_match rest (c == '/')

/-- Model of `find_files` (lines 23-27): of the regular files of the input
tree (as root-relative paths with a leading separator), the recursive glob
enumerates exactly those whose relative path has no dot-prefixed component;
hidden files and files under hidden directories are skipped. -/
def find_files (tree : List (List Char × List Char)) :
    List (List Char × List Char) :=
  tree.filter (fun e => glob_match e.1 true)

/-- The whole of `main` including its walker: enumerate the input tree with
`find_files`, then run the copy/substitute loop over the enumerated files. -/
def mainFull (g : Git) (input output : List Char)
    (tree : List (List Char × List Char)) : Option (List (List Char × List Char)) :=
  mainGo g input output initState (find_files tree)

/-- A concrete input tree holding a hidden file next to a visible one. -/
def hiddenTree : List (List Char × List Char) :=
  [("/.hidden.html".toList, "x".toList), ("/a.html".toList, "y".toList)]

/-- Lookup in a filesystem modelled as an association list where the most
recent write shadows older entries. -/
def lookupFS (fs : List (List Char × List Char)) (p : List Char) : Option (List Char) :=
  match fs with
  | [] => none
  | (q, c) :: rest => if q = p then some c else lookupFS rest p

/-- Apply a list of writes to a filesystem; later writes shadow earlier ones. -/
def applyWrites (fs ws : List (List Char × List Char)) : List (List Char × List Char) :=
  ws.foldl (fun acc e => e :: acc) fs

/-- The resolved command-line arguments. -/
structure Args where
  input : List Char
  output : List Char

/-- The observable world: whether a path is an existing directory, the file
tree under the input root, and the files already present on disk. -/
structure World where
  isdir : List Char → Bool
  tree : List (List Char × List Char)
  fs : List (List Char × List Char)

/-- The `__main__` block: asserts that the input is a directory before
calling `main`; `false` in the first component records an assertion failure,
and the second component is the resulting filesystem. -/
def topLevel (g : Git) (w : World) (a : Args) : Bool × List (List Char × List Char) :=
  if w.isdir a.input then
    match mainRun g a.input a.output w.tree with
    | some ws => (true, applyWrites w.fs ws)
    | none => (false, w.fs)
  else (false, w.fs)

/-- Tokenisation of the content of a text file: literal segments interleaved with
the three markers. Rendering a token list with the markers as marker text
gives the input content; rendering with the replacement contents gives the
fully substituted content. -/
inductive Tok where
  | lit : List Char → Tok
  | nav : Tok
  | ver : Tok
  | goog : Tok

/-- Render a token as input text: markers appear as marker text. -/
def renderTok : Tok → List Char
  | Tok.lit x => x
  | Tok.nav => NAV_MARKER
  | Tok.ver => VER_MARKER
  | Tok.goog => GOOG_MARKER

/-- Render a token as substituted text: markers appear as their contents. -/
def substTok (version : List Char) : Tok → List Char
  | Tok.lit x => x
  | Tok.nav => get_nav_bar
  | Tok.ver => version
  | Tok.goog => get_google_shit

/-- Concatenate the renderings of a token list. -/
def render (f : Tok → List Char) (ts : List Tok) : List Char :=
  (ts.map f).flatten

/-- Predicate: `x` is clean for marker `m`: no occurrence of `m` starts inside `x`,
whatever text follows `x` (neither wholly inside `x` nor straddling the
right edge of `x`). -/
abbrev CleanFor (x m : List Char) : Prop :=
  ∀ k, k < x.length → ¬ m <+: x.drop k ∧ ¬ x.drop k <+: m

/-- Inserting `r` after arbitrary text cannot complete an occurrence of `m`
begun in that text: no nonempty proper suffix of `m` is a prefix of `r`, nor
is `r` a prefix of such a suffix. -/
abbrev NoJunction (r m : List Char) : Prop :=
  ∀ k, k < m.length → 0 < k → ¬ m.drop k <+: r ∧ ¬ r <+: m.drop k

/-- A git oracle whose two queries both fail (empty captured stdout). -/
def anyGit : Git := ⟨[], fun _ => []⟩

/-- A git oracle whose date query emits the analytics marker. -/
def googGit : Git := ⟨"abc".toList, fun _ => GOOG_MARKER⟩

/-- A world whose input directory does not exist. -/
def noDirWorld : World :=
  ⟨fun _ => false, [("/index.html".toList, "hi".toList)],
    [("/out/x".toList, "old".toList)]⟩

/-- Concrete resolved arguments for witnesses. -/
def someArgs : Args := ⟨"/www".toList, "/out".toList⟩

/-- The fuel of `pyReplaceAux` is irrelevant as long as it dominates the
length of the string being scanned. -/
theorem pyReplaceAux_congr (old new : List Char) :
    ∀ f1 f2 s, s.length ≤ f1 → s.length ≤ f2 →
    pyReplaceAux old new f1 s = pyReplaceAux old new f2 s := by
  intro f1
  induction f1 with
  | zero =>
    intro f2 s hs1 _
    have : s = [] := List.eq_nil_of_length_eq_zero (Nat.le_zero.mp hs1)
    subst this
    cases f2 <;> simp [pyReplaceAux]
  | succ f1' ih =>
    intro f2 s hs1 hs2
    cases s with
    | nil => cases f2 <;> simp [pyReplaceAux]
    | cons c rest =>
      cases f2 with
      | zero => simp at hs2
      | succ f2' =>
        simp only [List.length_cons] at hs1 hs2
        simp only [pyReplaceAux]
        by_cases hold : old = []
        · rw [if_pos hold, if_pos hold, ih f2' rest (by omega) (by omega)]
        · rw [if_neg hold, if_neg hold]
          by_cases hpre : old.isPrefixOf (c :: rest) = true
          · rw [if_pos hpre, if_pos hpre]
            have hone : 1 ≤ old.length :=
              Nat.pos_of_ne_zero (fun h => hold (List.eq_nil_of_length_eq_zero h))
            have hlen1 : ((c :: rest).drop old.length).length ≤ f1' := by
              simp only [List.length_drop, List.length_cons]; omega
            have hlen2 : ((c :: rest).drop old.length).length ≤ f2' := by
              simp only [List.length_drop, List.length_cons]; omega
            rw [ih f2' _ hlen1 hlen2]
          · rw [if_neg hpre, if_neg hpre, ih f2' rest (by omega) (by omega)]

/-- Evaluation of `pyReplace` on the empty string with a nonempty pattern. -/
theorem pyReplace_nil (old new : List Char) (h : old ≠ []) :
    pyReplace [] old new = [] := by
  simp [pyReplace, pyReplaceAux, h]

/-- Evaluation of `pyReplace` at a match point: the occurrence is replaced and the scan
continues after it. -/
theorem pyReplace_match (old new u : List Char) (h : old ≠ []) :
    pyReplace (old ++ u) old new = new ++ pyReplace u old new := by
  obtain ⟨o, old', rfl⟩ : ∃ o old', old = o :: old' := by
    cases old with
    | nil => exact absurd rfl h
    | cons o old' => exact ⟨o, old', rfl⟩
  show pyReplaceAux (o :: old') new ((o :: old') ++ u).length (o :: (old' ++ u)) = _
  have hlen : ((o :: old') ++ u).length = (old' ++ u).length + 1 := by simp
  rw [hlen]
  simp only [pyReplaceAux, if_neg (List.cons_ne_nil o old')]
  have hpre : (o :: old').isPrefixOf (o :: (old' ++ u)) = true := by
    rw [ List.isPrefixOf_iff_prefix]
    exact List.prefix_append _ _
  simp only [hpre, if_pos]
  have hdrop : (o :: (old' ++ u)).drop (o :: old').length = u := by
    simp [List.drop_left old' u]
  rw [hdrop]
  have : u.length ≤ (old' ++ u).length := by simp
  rw [pyReplaceAux_congr _ _ _ u.length u this (Nat.le_refl _)]
  rfl

/-- Evaluation of `pyReplace` at a non-match point: the head character is kept. -/
theorem pyReplace_nomatch (old new : List Char) (c : Char) (rest : List Char)
    (h : ¬ old <+: c :: rest) :
    pyReplace (c :: rest) old new = c :: pyReplace rest old new := by
  have hold : old ≠ [] := by
    intro he
    exact h (he ▸ List.nil_prefix)
  show pyReplaceAux old new (rest.length + 1) (c :: rest) = _
  simp only [pyReplaceAux, if_neg hold]
  have hpre : old.isPrefixOf (c :: rest) = false := by
    rw [Bool.eq_false_iff]
    intro hb
    exact h ( List.isPrefixOf_iff_prefix.mp hb)
  simp [hpre, pyReplace]

/-- A prefix of an append either sits inside the first part or swallows it. -/
theorem prefix_of_append {p u v : List Char} (h : p <+: u ++ v) :
    p <+: u ∨ u <+: p := by
  induction u generalizing p with
  | nil => exact Or.inr List.nil_prefix
  | cons a u' ih =>
    cases p with
    | nil => exact Or.inl List.nil_prefix
    | cons b p' =>
      rw [List.cons_append, List.cons_prefix_cons] at h
      obtain ⟨rfl, h'⟩ := h
      rcases ih h' with h1 | h1
      · exact Or.inl (List.cons_prefix_cons.mpr ⟨rfl, h1⟩)
      · exact Or.inr (List.cons_prefix_cons.mpr ⟨rfl, h1⟩)

/-- Scanning for `old` through a block in which no occurrence of `old`
starts leaves the block unchanged. -/
theorem pyReplace_skip (old new : List Char) (_hold : old ≠ []) :
    ∀ a u, (∀ j, j < a.length → ¬ old <+: a.drop j ++ u) →
    pyReplace (a ++ u) old new = a ++ pyReplace u old new := by
  intro a
  induction a with
  | nil => intro u _; rfl
  | cons c a' ih =>
    intro u hno
    have h0 : ¬ old <+: (c :: a') ++ u := by
      have := hno 0 (by simp)
      simpa using this
    rw [List.cons_append, pyReplace_nomatch old new c (a' ++ u) h0]
    rw [ih u (fun j hj => by
      have := hno (j + 1) (by simpa using Nat.succ_lt_succ hj)
      simpa using this)]
    rfl

/-- A clean block is skipped entirely by `pyReplace`. -/
theorem pyReplace_skip_clean (old new : List Char) (hold : old ≠ []) (a u : List Char)
    (hc : CleanFor a old) :
    pyReplace (a ++ u) old new = a ++ pyReplace u old new := by
  apply pyReplace_skip old new hold
  intro j hj hpre
  rcases prefix_of_append hpre with h1 | h1
  · exact (hc j hj).1 h1
  · exact (hc j hj).2 h1

/-- A block clean for `old` is in particular not `old` itself. -/
theorem clean_ne (x old : List Char) (hold : old ≠ []) (hc : CleanFor x old) :
    x ≠ old := by
  intro rfl_eq
  subst rfl_eq
  have hx : 0 < x.length := by
    cases x with
    | nil => exact absurd rfl hold
    | cons _ _ => simp
  exact (hc 0 hx).1 (by simp)

/-- Substituting `m2` cannot create a new match front for a pattern `m`
whose occurrences can neither sit inside `r2` nor straddle the edges of an
inserted `r2`: every suffix of `m` that was not a prefix before the
substitution is still not a prefix after it. -/
theorem pyReplace_keeps_aux (m m2 r2 : List Char) (hm2 : m2 ≠ []) (hr2 : r2 ≠ [])
    (hc : CleanFor r2 m) (hj : NoJunction r2 m) :
    ∀ fuel s, s.length ≤ fuel → ∀ k, k < m.length →
    ¬ m.drop k <+: s → ¬ m.drop k <+: pyReplace s m2 r2 := by
  intro fuel
  induction fuel with
  | zero =>
    intro s hs k hk hns
    have : s = [] := List.eq_nil_of_length_eq_zero (Nat.le_zero.mp hs)
    subst this
    rw [pyReplace_nil _ _ hm2]
    exact hns
  | succ fuel' ih =>
    intro s hs k hk hns
    by_cases hp : m2 <+: s
    · obtain ⟨t, rfl⟩ := hp
      rw [pyReplace_match _ _ _ hm2]
      intro hcon
      have hr2pos : 0 < r2.length := by
        cases r2 with
        | nil => exact absurd rfl hr2
        | cons _ _ => simp
      rcases prefix_of_append hcon with h1 | h1
      · rcases Nat.eq_zero_or_pos k with rfl | hkpos
        · exact (hc 0 hr2pos).1 (by simpa using h1)
        · exact (hj k hk hkpos).1 h1
      · rcases Nat.eq_zero_or_pos k with rfl | hkpos
        · exact (hc 0 hr2pos).2 (by simpa using h1)
        · exact (hj k hk hkpos).2 h1
    · cases s with
      | nil =>
        rw [pyReplace_nil _ _ hm2]
        exact hns
      | cons c t =>
        rw [pyReplace_nomatch _ _ _ _ hp]
        intro hcon
        rw [List.drop_eq_getElem_cons hk, List.cons_prefix_cons] at hcon
        obtain ⟨hgc, htail⟩ := hcon
        by_cases hlast : k + 1 < m.length
        · have hnt : ¬ m.drop (k + 1) <+: t := by
            intro hx
            apply hns
            rw [List.drop_eq_getElem_cons hk, List.cons_prefix_cons]
            exact ⟨hgc, hx⟩
          have hlen : t.length ≤ fuel' := by
            simp only [List.length_cons] at hs; omega
          exact ih t hlen (k + 1) hlast hnt htail
        · have hdrop : m.drop (k + 1) = [] := by
            apply List.drop_eq_nil_of_le
            omega
          apply hns
          rw [List.drop_eq_getElem_cons hk, List.cons_prefix_cons, hdrop]
          exact ⟨hgc, List.nil_prefix⟩

/-- Wrapper for `pyReplace_keeps_aux` at the length of the string itself. -/
theorem pyReplace_keeps (m m2 r2 : List Char) (hm2 : m2 ≠ []) (hr2 : r2 ≠ [])
    (hc : CleanFor r2 m) (hj : NoJunction r2 m) (s : List Char) (hm : m ≠ [])
    (hns : ¬ m <+: s) : ¬ m <+: pyReplace s m2 r2 := by
  have hmpos : 0 < m.length := by
    cases m with
    | nil => exact absurd rfl hm
    | cons _ _ => simp
  have := pyReplace_keeps_aux m m2 r2 hm2 hr2 hc hj s.length s (Nat.le_refl _) 0 hmpos
  simp only [List.drop_zero] at this
  exact this hns

/-- Two marker substitutions commute when the markers cannot overlap each
other and each replacement content can neither contain nor border-overlap
the other marker. Fuel-indexed version. -/
theorem pyReplace_comm_aux (m1 r1 m2 r2 : List Char)
    (h1 : m1 ≠ []) (h2 : m2 ≠ []) (hr1 : r1 ≠ []) (hr2 : r2 ≠ [])
    (h12 : CleanFor m1 m2) (h21 : CleanFor m2 m1)
    (hc1 : CleanFor r1 m2) (hc2 : CleanFor r2 m1)
    (hj1 : NoJunction r1 m2) (hj2 : NoJunction r2 m1) :
    ∀ fuel s, s.length ≤ fuel →
    pyReplace (pyReplace s m1 r1) m2 r2 = pyReplace (pyReplace s m2 r2) m1 r1 := by
  intro fuel
  induction fuel with
  | zero =>
    intro s hs
    have : s = [] := List.eq_nil_of_length_eq_zero (Nat.le_zero.mp hs)
    subst this
    rw [pyReplace_nil _ _ h1, pyReplace_nil _ _ h2, pyReplace_nil _ _ h1]
  | succ fuel' ih =>
    intro s hs
    have h1pos : 0 < m1.length := by
      cases m1 with
      | nil => exact absurd rfl h1
      | cons _ _ => simp
    have h2pos : 0 < m2.length := by
      cases m2 with
      | nil => exact absurd rfl h2
      | cons _ _ => simp
    by_cases hp1 : m1 <+: s
    · obtain ⟨t, rfl⟩ := hp1
      have hlen : t.length ≤ fuel' := by
        simp only [List.length_append] at hs; omega
      rw [pyReplace_match _ _ _ h1,
        pyReplace_skip_clean m2 r2 h2 r1 _ hc1,
        pyReplace_skip_clean m2 r2 h2 m1 t h12,
        pyReplace_match _ _ _ h1,
        ih t hlen]
    · by_cases hp2 : m2 <+: s
      · obtain ⟨t, rfl⟩ := hp2
        have hlen : t.length ≤ fuel' := by
          simp only [List.length_append] at hs; omega
        rw [pyReplace_match _ _ _ h2,
          pyReplace_skip_clean m1 r1 h1 r2 _ hc2,
          pyReplace_skip_clean m1 r1 h1 m2 t h21,
          pyReplace_match _ _ _ h2,
          ih t hlen]
      · cases s with
        | nil =>
          rw [pyReplace_nil _ _ h1, pyReplace_nil _ _ h2, pyReplace_nil _ _ h1]
        | cons c t =>
          have hlen : t.length ≤ fuel' := by
            simp only [List.length_cons] at hs; omega
          have hk2 : ¬ m2 <+: c :: pyReplace t m1 r1 := by
            have := pyReplace_keeps m2 m1 r1 h1 hr1 hc1 hj1 (c :: t) h2 hp2
            rwa [pyReplace_nomatch _ _ _ _ hp1] at this
          have hk1 : ¬ m1 <+: c :: pyReplace t m2 r2 := by
            have := pyReplace_keeps m1 m2 r2 h2 hr2 hc2 hj2 (c :: t) h1 hp1
            rwa [pyReplace_nomatch _ _ _ _ hp2] at this
          rw [pyReplace_nomatch _ _ _ _ hp1, pyReplace_nomatch _ _ _ _ hp2,
            pyReplace_nomatch _ _ _ _ hk2, pyReplace_nomatch _ _ _ _ hk1,
            ih t hlen]

/-- Two marker substitutions commute under non-overlap and cleanliness
conditions on markers and replacement contents. -/
theorem pyReplace_comm (m1 r1 m2 r2 : List Char)
    (h1 : m1 ≠ []) (h2 : m2 ≠ []) (hr1 : r1 ≠ []) (hr2 : r2 ≠ [])
    (h12 : CleanFor m1 m2) (h21 : CleanFor m2 m1)
    (hc1 : CleanFor r1 m2) (hc2 : CleanFor r2 m1)
    (hj1 : NoJunction r1 m2) (hj2 : NoJunction r2 m1) (s : List Char) :
    pyReplace (pyReplace s m1 r1) m2 r2 = pyReplace (pyReplace s m2 r2) m1 r1 :=
  pyReplace_comm_aux m1 r1 m2 r2 h1 h2 hr1 hr2 h12 h21 hc1 hc2 hj1 hj2
    s.length s (Nat.le_refl _)

/-- Rendering an empty token list. -/
theorem render_nil (f : Tok → List Char) : render f [] = [] := rfl

/-- Rendering a token list, head step. -/
theorem render_cons (f : Tok → List Char) (t : Tok) (ts : List Tok) :
    render f (t :: ts) = f t ++ render f ts := by
  simp [render]

/-- Rendering only depends on the values of the function on the list's tokens. -/
theorem render_congr (f g : Tok → List Char) :
    ∀ ts : List Tok, (∀ t ∈ ts, f t = g t) → render f ts = render g ts := by
  intro ts
  induction ts with
  | nil => intro _; rfl
  | cons t ts' ih =>
    intro h
    rw [render_cons, render_cons, h t (List.mem_cons_self _ _),
      ih (fun t' ht' => h t' (List.mem_cons_of_mem _ ht'))]

/-- One substitution pass over a rendered token list: every token whose
rendering is exactly the marker is replaced by the content, every other
token is clean and passes through unchanged. This is the sense in which
`str.replace` replaces EVERY occurrence of the marker. -/
theorem pyReplace_render (m r : List Char) (hm : m ≠ []) (f : Tok → List Char) :
    ∀ ts : List Tok, (∀ t ∈ ts, f t = m ∨ CleanFor (f t) m) →
    pyReplace (render f ts) m r =
      render (fun t => if f t = m then r else f t) ts := by
  intro ts
  induction ts with
  | nil => intro _; rw [render_nil, render_nil, pyReplace_nil _ _ hm]
  | cons t ts' ih =>
    intro h
    have hrest : ∀ t' ∈ ts', f t' = m ∨ CleanFor (f t') m :=
      fun t' ht' => h t' (List.mem_cons_of_mem _ ht')
    rw [render_cons, render_cons]
    rcases h t (List.mem_cons_self _ _) with heq | hclean
    · rw [heq, pyReplace_match _ _ _ hm, ih hrest, if_pos rfl]
    · rw [pyReplace_skip_clean m r hm _ _ hclean, ih hrest,
        if_neg (clean_ne _ _ hm hclean)]

/-- The three markers and the two fixed replacement fragments are nonempty. -/
theorem markers_nonempty :
    NAV_MARKER ≠ [] ∧ VER_MARKER ≠ [] ∧ GOOG_MARKER ≠ [] ∧
    get_nav_bar ≠ [] ∧ get_google_shit ≠ [] := by decide

/-- The version marker cannot overlap the nav marker. -/
theorem clean_ver_nav : CleanFor VER_MARKER NAV_MARKER := by decide

/-- The analytics marker cannot overlap the nav marker. -/
theorem clean_goog_nav : CleanFor GOOG_MARKER NAV_MARKER := by decide

/-- The nav marker cannot overlap the version marker. -/
theorem clean_nav_ver : CleanFor NAV_MARKER VER_MARKER := by decide

/-- The nav marker cannot overlap the analytics marker. -/
theorem clean_nav_goog : CleanFor NAV_MARKER GOOG_MARKER := by decide

/-- The version marker cannot overlap the analytics marker. -/
theorem clean_ver_goog : CleanFor VER_MARKER GOOG_MARKER := by decide

/-- The analytics marker cannot overlap the version marker. -/
theorem clean_goog_ver : CleanFor GOOG_MARKER VER_MARKER := by decide

/-- No occurrence of the version marker can touch the nav-bar fragment. -/
theorem clean_navbar_ver : CleanFor get_nav_bar VER_MARKER := by decide

/-- No occurrence of the analytics marker can touch the nav-bar fragment. -/
theorem clean_navbar_goog : CleanFor get_nav_bar GOOG_MARKER := by decide

/-- No occurrence of the nav marker can touch the analytics fragment. -/
theorem clean_googsht_nav : CleanFor get_google_shit NAV_MARKER := by decide

/-- No occurrence of the version marker can touch the analytics fragment. -/
theorem clean_googsht_ver : CleanFor get_google_shit VER_MARKER := by decide

/-- The nav-bar fragment cannot complete a version marker begun before it. -/
theorem junction_navbar_ver : NoJunction get_nav_bar VER_MARKER := by decide

/-- The nav-bar fragment cannot complete an analytics marker begun before it. -/
theorem junction_navbar_goog : NoJunction get_nav_bar GOOG_MARKER := by decide

/-- The analytics fragment cannot complete a nav marker begun before it. -/
theorem junction_googsht_nav : NoJunction get_google_shit NAV_MARKER := by decide

/-- The analytics fragment cannot complete a version marker begun before it. -/
theorem junction_googsht_ver : NoJunction get_google_shit VER_MARKER := by decide

/-- Applying `replace_prefix` to a path built from the input root and a relative
part strips the root and grafts the new root on. -/
theorem replace_prefix_append (p r q : List Char) :
    replace_prefix (p ++ r) p q = some (q ++ r) := by
  unfold replace_prefix
  rw [if_pos ( List.isPrefixOf_iff_prefix.mpr (List.prefix_append p r)),
    List.drop_left]

/-- C5: for every string s, input-root p and output-root q, the path
remapper returns q followed by the remainder of s after p whenever s starts
with p, and fails its assertion (modelled as `none`) whenever s does not
start with p. -/
theorem replace_prefix_spec (s p q : List Char) :
    (∀ r, s = p ++ r → replace_prefix s p q = some (q ++ r)) ∧
    ((∀ r, s ≠ p ++ r) → replace_prefix s p q = none) := by
  constructor
  · rintro r rfl
    exact replace_prefix_append p r q
  · intro h
    unfold replace_prefix
    rw [if_neg]
    intro hb
    obtain ⟨r, hr⟩ := List.isPrefixOf_iff_prefix.mp hb
    exact h r hr.symm

/-- Witness for C5 at concrete paths. -/
theorem replace_prefix_spec_witness :
    replace_prefix ("/www/index.html".toList) ("/www".toList) ("/out".toList) =
      some ("/out/index.html".toList) ∧
    replace_prefix ("/x".toList) ("/www".toList) ("/out".toList) = none := by
  constructor
  · exact (replace_prefix_spec _ _ _).1 ("/index.html".toList) (by decide)
  · refine (replace_prefix_spec _ _ _).2 (fun r h => ?_)
    have h2 : ("/x".toList).length = ("/www".toList ++ r).length := by rw [h]
    rw [List.length_append] at h2
    have e1 : ("/x".toList).length = 2 := by decide
    have e2 : ("/www".toList).length = 4 := by decide
    rw [e1, e2] at h2
    omega

/-- C6: the classifier answers binary exactly when the `os.path.splitext`
extension of the path is `.wasm` or `.png`, and its answer depends on
nothing but that extension. -/
theorem is_binary_file_ext_allowlist (f gpath : List Char) :
    (is_binary_file f = true ↔
      splitext_ext f = ".wasm".toList ∨ splitext_ext f = ".png".toList) ∧
    (splitext_ext gpath = splitext_ext f →
      is_binary_file gpath = is_binary_file f) := by
  constructor
  · unfold is_binary_file BIN_EXTS
    simp
  · intro h
    unfold is_binary_file
    rw [h]

/-- Witness for C6: two paths with the same extension in different
directories are classified alike, and `.png` is binary. -/
theorem is_binary_file_ext_allowlist_witness :
    splitext_ext ("/c/d.png".toList) = splitext_ext ("/a/b.png".toList) ∧
    is_binary_file ("/c/d.png".toList) = is_binary_file ("/a/b.png".toList) := by
  refine ⟨by decide, ?_⟩
  exact (is_binary_file_ext_allowlist ("/a/b.png".toList) ("/c/d.png".toList)).2
    (by decide)

/-- C4: when both git queries fail (empty captured stdout, as produced by
`subprocess.run` with `capture_output=True` and no `check`), the version
resolver still returns, yielding the degraded placeholder string " ()" and
caching it; the run continues. -/
theorem version_resolver_degrades_gracefully (g : Git) (st : PState)
    (hst : st.version = none) (hrev : g.revParse = [])
    (hdate : ∀ c, g.showDate c = []) :
    (get_version_str g st).1 = " ()".toList ∧
    (get_version_str g st).2.1.version = some (" ()".toList) := by
  obtain ⟨ver⟩ := st
  simp only at hst
  subst hst
  obtain ⟨rev, sd⟩ := g
  simp only at hrev hdate
  subst hrev
  simp only [get_version_str]
  rw [hdate]
  refine ⟨?_, ?_⟩ <;> decide

/-- Witness for C4 with the all-failing oracle. -/
theorem version_resolver_degrades_gracefully_witness :
    initState.version = none ∧ anyGit.revParse = [] ∧
    (get_version_str anyGit initState).1 = " ()".toList ∧
    (get_version_str anyGit initState).2.1.version = some (" ()".toList) :=
  ⟨rfl, rfl,
    version_resolver_degrades_gracefully anyGit initState rfl rfl (fun _ => rfl)⟩

/-- C7: starting from the fresh process state, the first call to the
version resolver issues two git queries and returns the string formed as
date, space, parenthesised short hash; the second call returns the same
string with the same state and zero queries; and in general any call on a
cached state returns the cached value with zero queries. -/
theorem version_string_cached_once (g : Git) :
    (get_version_str g initState).1 =
      pyStrip (g.showDate (pyStrip g.revParse)) ++ " (".toList ++
        pyStrip g.revParse ++ ")".toList ∧
    (get_version_str g initState).2.2 = 2 ∧
    get_version_str g (get_version_str g initState).2.1 =
      ((get_version_str g initState).1, (get_version_str g initState).2.1, 0) ∧
    (∀ st v, st.version = some v → get_version_str g st = (v, st, 0)) := by
  refine ⟨rfl, rfl, rfl, ?_⟩
  intro st v h
  obtain ⟨ver⟩ := st
  simp only at h
  subst h
  rfl

/-- Witness for the cached-state clause of C7 at a concrete state. -/
theorem version_string_cached_once_witness :
    (⟨some (" ()".toList)⟩ : PState).version = some (" ()".toList) ∧
    get_version_str anyGit ⟨some (" ()".toList)⟩ =
      (" ()".toList, ⟨some (" ()".toList)⟩, 0) :=
  ⟨rfl, (version_string_cached_once anyGit).2.2.2 ⟨some (" ()".toList)⟩
    (" ()".toList) rfl⟩

/-- C9: if the resolved input path is not an existing directory, the
top-level assertion fails before `main` runs: the result records the
assertion failure and the filesystem is returned unchanged (no output
directory or file is created). -/
theorem missing_input_no_mutation (g : Git) (w : World) (a : Args)
    (h : w.isdir a.input = false) :
    topLevel g w a = (false, w.fs) := by
  unfold topLevel
  rw [h]
  simp

/-- Witness for C9 at a world with no input directory. -/
theorem missing_input_no_mutation_witness :
    noDirWorld.isdir someArgs.input = false ∧
    topLevel anyGit noDirWorld someArgs = (false, noDirWorld.fs) :=
  ⟨rfl, missing_input_no_mutation anyGit noDirWorld someArgs rfl⟩

/-- The run never fails on a well-formed tree and writes exactly one output
per input file, at the relative path of the input grafted under the output root. -/
theorem mainGo_paths (g : Git) (input output : List Char) :
    ∀ (tree : List (List Char × List Char)) (st : PState),
    (mainGo g input output st tree).map (List.map Prod.fst) =
      some (tree.map (fun e => output ++ e.1)) := by
  intro tree
  induction tree with
  | nil => intro st; rfl
  | cons e rest ih =>
    intro st
    obtain ⟨rel, content⟩ := e
    simp only [mainGo, replace_prefix_append]
    by_cases hb : is_binary_file (input ++ rel) = true
    · rw [if_pos hb]
      cases hgo : mainGo g input output st rest with
      | none =>
        have := ih st
        rw [hgo] at this
        simp at this
      | some ws =>
        have := ih st
        rw [hgo] at this
        rw [Option.map_some'] at this
        injection this with this
        simp [this]
    · rw [if_neg hb]
      cases hgo : mainGo g input output (get_version_str g st).2.1 rest with
      | none =>
        have := ih (get_version_str g st).2.1
        rw [hgo] at this
        simp at this
      | some ws =>
        have := ih (get_version_str g st).2.1
        rw [hgo] at this
        rw [Option.map_some'] at this
        injection this with this
        simp [this]

/-- C3 counterexample: the claim fails as stated, because `find_files`
(a recursive glob) skips hidden entries. On a tree holding the regular
files `/.hidden.html` and `/a.html`, the run completes writing only
`/out/a.html`: the hidden input file has no corresponding output path, so
the set of output paths relative to the output root is strictly smaller
than the set of input regular-file relative paths. -/
theorem output_tree_mirrors_counterexample :
    ("/.hidden.html".toList, "x".toList) ∈ hiddenTree ∧
    mainFull anyGit ("/www".toList) ("/out".toList) hiddenTree =
      some [("/out/a.html".toList, "y".toList)] ∧
    "/out/.hidden.html".toList ∉
      ([("/out/a.html".toList, "y".toList)].map Prod.fst) := by
  decide

/-- C3 (amended): after a run completes, the set of output file paths
relative to the output root equals the set of input regular-file paths
relative to the input root THAT THE RECURSIVE GLOB ENUMERATES: exactly
those input files whose relative path contains no dot-prefixed component.
The run mirrors each enumerated file to the corresponding relative path
under the output root, and hidden files (or files under hidden
directories) produce no output. -/
theorem output_tree_mirrors_glob_files (g : Git) (input output : List Char)
    (tree : List (List Char × List Char)) :
    (mainFull g input output tree).map (List.map Prod.fst) =
      some ((tree.filter (fun e => glob_match e.1 true)).map
        (fun e => output ++ e.1)) ∧
    (∀ rel c, (rel, c) ∈ find_files tree ↔
      (rel, c) ∈ tree ∧ glob_match rel true = true) := by
  constructor
  · exact mainGo_paths g input output
      (tree.filter (fun e => glob_match e.1 true)) initState
  · intro rel c
    exact List.mem_filter

/-- The content of every binary-classified input file is written unchanged at
the corresponding output path, from any cache state. -/
theorem mainGo_binary_mem (g : Git) (input output : List Char) :
    ∀ (tree : List (List Char × List Char)) (st : PState)
    (ws : List (List Char × List Char)),
    mainGo g input output st tree = some ws →
    ∀ rel content, (rel, content) ∈ tree →
    is_binary_file (input ++ rel) = true →
    (output ++ rel, content) ∈ ws := by
  intro tree
  induction tree with
  | nil =>
    intro st ws _ rel content hmem
    simp at hmem
  | cons e rest ih =>
    intro st ws h rel content hmem hbin
    obtain ⟨rel0, c0⟩ := e
    simp only [mainGo, replace_prefix_append] at h
    rcases List.mem_cons.mp hmem with heq | hmem'
    · rw [Prod.mk.injEq] at heq
      obtain ⟨rfl, rfl⟩ := heq
      rw [if_pos hbin] at h
      cases hgo : mainGo g input output st rest with
      | none => rw [hgo] at h; simp at h
      | some ws' =>
        rw [hgo] at h
        rw [Option.map_some'] at h
        injection h with h
        rw [← h]
        exact List.mem_cons_self _ _
    · by_cases hb0 : is_binary_file (input ++ rel0) = true
      · rw [if_pos hb0] at h
        cases hgo : mainGo g input output st rest with
        | none => rw [hgo] at h; simp at h
        | some ws' =>
          rw [hgo] at h
          rw [Option.map_some'] at h
          injection h with h
          rw [← h]
          exact List.mem_cons_of_mem _ (ih st ws' hgo rel content hmem' hbin)
      · rw [if_neg hb0] at h
        cases hgo : mainGo g input output (get_version_str g st).2.1 rest with
        | none => rw [hgo] at h; simp at h
        | some ws' =>
          rw [hgo] at h
          rw [Option.map_some'] at h
          injection h with h
          rw [← h]
          exact List.mem_cons_of_mem _
            (ih (get_version_str g st).2.1 ws' hgo rel content hmem' hbin)

/-- C2: in a full run, every input file classified as binary is written to
its output path with content identical to its input content: no
substitution is applied to it. -/
theorem binary_copy_byte_identical (g : Git) (input output : List Char)
    (tree : List (List Char × List Char)) (ws : List (List Char × List Char))
    (hws : mainRun g input output tree = some ws)
    (rel content : List Char) (hmem : (rel, content) ∈ tree)
    (hbin : is_binary_file (input ++ rel) = true) :
    (output ++ rel, content) ∈ ws :=
  mainGo_binary_mem g input output tree initState ws hws rel content hmem hbin

/-- Witness for C2: a run over a tree with one png file copies its bytes. -/
theorem binary_copy_byte_identical_witness :
    mainRun anyGit ("/www".toList) ("/out".toList)
        [("/logo.png".toList, "PNGBYTES".toList)] =
      some [("/out/logo.png".toList, "PNGBYTES".toList)] ∧
    ("/out/logo.png".toList, "PNGBYTES".toList) ∈
      [("/out/logo.png".toList, "PNGBYTES".toList)] := by
  refine ⟨by decide, ?_⟩
  exact binary_copy_byte_identical anyGit ("/www".toList) ("/out".toList)
    [("/logo.png".toList, "PNGBYTES".toList)]
    [("/out/logo.png".toList, "PNGBYTES".toList)] (by decide)
    ("/logo.png".toList) ("PNGBYTES".toList) (by decide) (by decide)

/-- Writing a list of entries none of which is at path p does not change
what a lookup at p sees. -/
theorem lookup_applyWrites (p : List Char) :
    ∀ (ws fs : List (List Char × List Char)), (∀ e ∈ ws, e.1 ≠ p) →
    lookupFS (applyWrites fs ws) p = lookupFS fs p := by
  intro ws
  induction ws with
  | nil => intro fs _; rfl
  | cons e ws' ih =>
    intro fs h
    have hstep : applyWrites fs (e :: ws') = applyWrites (e :: fs) ws' := rfl
    rw [hstep, ih (e :: fs) (fun x hx => h x (List.mem_cons_of_mem _ hx))]
    obtain ⟨q, c⟩ := e
    have hq : q ≠ p := h (q, c) (List.mem_cons_self _ _)
    simp [lookupFS, hq]

/-- C10: a run writes only paths of the form output-root plus an input
relative path of an input file; any file already on disk at a different path
keeps its content unchanged after all writes of the run are applied. -/
theorem stale_outputs_untouched (g : Git) (input output : List Char)
    (tree fs : List (List Char × List Char)) (p : List Char)
    (hp : ∀ rel, rel ∈ tree.map Prod.fst → p ≠ output ++ rel)
    (ws : List (List Char × List Char))
    (hws : mainRun g input output tree = some ws) :
    lookupFS (applyWrites fs ws) p = lookupFS fs p := by
  apply lookup_applyWrites
  intro e he hep
  have hpaths := mainGo_paths g input output tree initState
  rw [show mainGo g input output initState tree = mainRun g input output tree
    from rfl, hws] at hpaths
  rw [Option.map_some'] at hpaths
  injection hpaths with hpaths
  have hmem : e.1 ∈ ws.map Prod.fst := List.mem_map_of_mem _ he
  rw [hpaths] at hmem
  obtain ⟨e', he', heq⟩ := List.mem_map.mp hmem
  exact hp e'.1 (List.mem_map_of_mem _ he') (by rw [← hep, ← heq])

/-- Witness for C10: a pre-existing stale output file is untouched. -/
theorem stale_outputs_untouched_witness :
    (∀ rel, rel ∈ ([("/a.html".toList, "x".toList)].map Prod.fst) →
      ("/out/stale.html".toList) ≠ "/out".toList ++ rel) ∧
    mainRun anyGit ("/www".toList) ("/out".toList)
        [("/a.html".toList, "x".toList)] =
      some [("/out/a.html".toList, "x".toList)] ∧
    lookupFS (applyWrites [("/out/stale.html".toList, "old".toList)]
        [("/out/a.html".toList, "x".toList)]) ("/out/stale.html".toList) =
      lookupFS [("/out/stale.html".toList, "old".toList)]
        ("/out/stale.html".toList) := by
  refine ⟨by decide, by decide, ?_⟩
  exact stale_outputs_untouched anyGit ("/www".toList) ("/out".toList)
    [("/a.html".toList, "x".toList)] [("/out/stale.html".toList, "old".toList)]
    ("/out/stale.html".toList) (by decide) _ (by decide)

/-- C1: for a text-classified file whose content decomposes into literal
segments (each unable to contain or border an occurrence of any marker) and
marker occurrences, the engine rewrites EVERY marker occurrence - the nav
markers to the nav-bar fragment, the version markers to the version string,
the analytics markers to the analytics fragment - and the written output is
exactly the fully substituted rendering. -/
theorem text_marker_substitution_all_occurrences (fname version : List Char)
    (ts : List Tok) (hb : is_binary_file fname = false)
    (hlit : ∀ x, Tok.lit x ∈ ts →
      CleanFor x NAV_MARKER ∧ CleanFor x VER_MARKER ∧ CleanFor x GOOG_MARKER)
    (hv : CleanFor version GOOG_MARKER) :
    processFileContent version fname (render renderTok ts) =
      render (substTok version) ts := by
  obtain ⟨hnav, hver, hgoog, hnavbar, hgoogsht⟩ := markers_nonempty
  unfold processFileContent
  rw [hb]
  simp only [Bool.false_eq_true, if_false]
  unfold processText
  have hc1 : ∀ t ∈ ts,
      renderTok t = NAV_MARKER ∨ CleanFor (renderTok t) NAV_MARKER := by
    intro t ht
    cases t with
    | lit x => exact Or.inr (hlit x ht).1
    | nav => exact Or.inl rfl
    | ver => exact Or.inr clean_ver_nav
    | goog => exact Or.inr clean_goog_nav
  rw [pyReplace_render NAV_MARKER get_nav_bar hnav renderTok ts hc1]
  have hc2 : ∀ t ∈ ts,
      (if renderTok t = NAV_MARKER then get_nav_bar else renderTok t) =
        VER_MARKER ∨
      CleanFor (if renderTok t = NAV_MARKER then get_nav_bar else renderTok t)
        VER_MARKER := by
    intro t ht
    cases t with
    | lit x =>
      rw [show renderTok (Tok.lit x) = x from rfl,
        if_neg (clean_ne x NAV_MARKER hnav (hlit x ht).1)]
      exact Or.inr (hlit x ht).2.1
    | nav =>
      rw [show renderTok Tok.nav = NAV_MARKER from rfl, if_pos rfl]
      exact Or.inr clean_navbar_ver
    | ver =>
      rw [show renderTok Tok.ver = VER_MARKER from rfl,
        if_neg (clean_ne VER_MARKER NAV_MARKER hnav clean_ver_nav)]
      exact Or.inl rfl
    | goog =>
      rw [show renderTok Tok.goog = GOOG_MARKER from rfl,
        if_neg (clean_ne GOOG_MARKER NAV_MARKER hnav clean_goog_nav)]
      exact Or.inr clean_goog_ver
  rw [pyReplace_render VER_MARKER version hver
    (fun t => if renderTok t = NAV_MARKER then get_nav_bar else renderTok t)
    ts hc2]
  have hc3 : ∀ t ∈ ts,
      (if (if renderTok t = NAV_MARKER then get_nav_bar else renderTok t) =
          VER_MARKER then version
        else if renderTok t = NAV_MARKER then get_nav_bar else renderTok t) =
        GOOG_MARKER ∨
      CleanFor
        (if (if renderTok t = NAV_MARKER then get_nav_bar else renderTok t) =
            VER_MARKER then version
          else if renderTok t = NAV_MARKER then get_nav_bar else renderTok t)
        GOOG_MARKER := by
    intro t ht
    cases t with
    | lit x =>
      rw [show renderTok (Tok.lit x) = x from rfl,
        if_neg (clean_ne x NAV_MARKER hnav (hlit x ht).1),
        if_neg (clean_ne x VER_MARKER hver (hlit x ht).2.1)]
      exact Or.inr (hlit x ht).2.2
    | nav =>
      rw [show renderTok Tok.nav = NAV_MARKER from rfl, if_pos rfl,
        if_neg (clean_ne get_nav_bar VER_MARKER hver clean_navbar_ver)]
      exact Or.inr clean_navbar_goog
    | ver =>
      rw [show renderTok Tok.ver = VER_MARKER from rfl,
        if_neg (clean_ne VER_MARKER NAV_MARKER hnav clean_ver_nav), if_pos rfl]
      exact Or.inr hv
    | goog =>
      rw [show renderTok Tok.goog = GOOG_MARKER from rfl,
        if_neg (clean_ne GOOG_MARKER NAV_MARKER hnav clean_goog_nav),
        if_neg (clean_ne GOOG_MARKER VER_MARKER hver clean_goog_ver)]
      exact Or.inl rfl
  rw [pyReplace_render GOOG_MARKER get_google_shit hgoog
    (fun t => if (if renderTok t = NAV_MARKER then get_nav_bar
        else renderTok t) = VER_MARKER then version
      else if renderTok t = NAV_MARKER then get_nav_bar else renderTok t)
    ts hc3]
  apply render_congr
  intro t ht
  cases t with
  | lit x =>
    rw [show renderTok (Tok.lit x) = x from rfl,
      if_neg (clean_ne x NAV_MARKER hnav (hlit x ht).1),
      if_neg (clean_ne x VER_MARKER hver (hlit x ht).2.1),
      if_neg (clean_ne x GOOG_MARKER hgoog (hlit x ht).2.2)]
    rfl
  | nav =>
    rw [show renderTok Tok.nav = NAV_MARKER from rfl, if_pos rfl,
      if_neg (clean_ne get_nav_bar VER_MARKER hver clean_navbar_ver),
      if_neg (clean_ne get_nav_bar GOOG_MARKER hgoog clean_navbar_goog)]
    rfl
  | ver =>
    rw [show renderTok Tok.ver = VER_MARKER from rfl,
      if_neg (clean_ne VER_MARKER NAV_MARKER hnav clean_ver_nav), if_pos rfl,
      if_neg (clean_ne version GOOG_MARKER hgoog hv)]
    rfl
  | goog =>
    rw [show renderTok Tok.goog = GOOG_MARKER from rfl,
      if_neg (clean_ne GOOG_MARKER NAV_MARKER hnav clean_goog_nav),
      if_neg (clean_ne GOOG_MARKER VER_MARKER hver clean_goog_ver), if_pos rfl]
    rfl

/-- Witness for C1: the concrete scenario of the spec, a text file containing a
nav marker and a version marker. -/
theorem text_marker_substitution_all_occurrences_witness :
    is_binary_file ("/www/index.html".toList) = false ∧
    processFileContent ("2024-01-01 (abc1234)".toList) ("/www/index.html".toList)
        (render renderTok
          [Tok.lit ("Hi ".toList), Tok.nav, Tok.lit (" v".toList), Tok.ver]) =
      render (substTok ("2024-01-01 (abc1234)".toList))
        [Tok.lit ("Hi ".toList), Tok.nav, Tok.lit (" v".toList), Tok.ver] := by
  refine ⟨by decide, ?_⟩
  exact text_marker_substitution_all_occurrences ("/www/index.html".toList)
    ("2024-01-01 (abc1234)".toList)
    [Tok.lit ("Hi ".toList), Tok.nav, Tok.lit (" v".toList), Tok.ver]
    (by decide)
    (by
      intro x hx
      simp only [List.mem_cons, List.not_mem_nil, or_false, false_or,
        reduceCtorEq, Tok.lit.injEq] at hx
      rcases hx with rfl | rfl
      · exact ⟨by decide, by decide, by decide⟩
      · exact ⟨by decide, by decide, by decide⟩)
    (by decide)

/-- C8 counterexample: the claim fails as stated. The version string is
produced by the resolver from external git output and can itself contain a
marker; with such a version string the fixed order (nav, version,
analytics) and the order (analytics, version, nav) give different results
on the one-marker content `VER_MARKER`. -/
theorem substitution_order_counterexample :
    pyReplace (pyReplace (pyReplace VER_MARKER GOOG_MARKER get_google_shit)
        VER_MARKER (get_version_str googGit initState).1)
      NAV_MARKER get_nav_bar ≠
    processText (get_version_str googGit initState).1 VER_MARKER := by
  decide

/-- C8 (amended): for every text content string, applying the three marker
substitutions in any of the six orders yields the fixed-order
result of the program, PROVIDED the version string is nonempty and can neither contain nor
border-overlap the nav and analytics markers (conditions that the fixed
nav-bar and analytics fragments themselves satisfy, but that the
externally-produced version string can violate). -/
theorem substitution_order_commutes_amended (version : List Char)
    (hne : version ≠ [])
    (hcn : CleanFor version NAV_MARKER) (hcg : CleanFor version GOOG_MARKER)
    (hjn : NoJunction version NAV_MARKER) (hjg : NoJunction version GOOG_MARKER)
    (s : List Char) :
    (pyReplace (pyReplace (pyReplace s NAV_MARKER get_nav_bar) GOOG_MARKER
        get_google_shit) VER_MARKER version = processText version s) ∧
    (pyReplace (pyReplace (pyReplace s VER_MARKER version) NAV_MARKER
        get_nav_bar) GOOG_MARKER get_google_shit = processText version s) ∧
    (pyReplace (pyReplace (pyReplace s VER_MARKER version) GOOG_MARKER
        get_google_shit) NAV_MARKER get_nav_bar = processText version s) ∧
    (pyReplace (pyReplace (pyReplace s GOOG_MARKER get_google_shit) NAV_MARKER
        get_nav_bar) VER_MARKER version = processText version s) ∧
    (pyReplace (pyReplace (pyReplace s GOOG_MARKER get_google_shit) VER_MARKER
        version) NAV_MARKER get_nav_bar = processText version s) := by
  obtain ⟨hnav, hver, hgoog, hnavbar, hgoogsht⟩ := markers_nonempty
  have cNV := pyReplace_comm NAV_MARKER get_nav_bar VER_MARKER version
    hnav hver hnavbar hne clean_nav_ver clean_ver_nav clean_navbar_ver hcn
    junction_navbar_ver hjn
  have cNG := pyReplace_comm NAV_MARKER get_nav_bar GOOG_MARKER get_google_shit
    hnav hgoog hnavbar hgoogsht clean_nav_goog clean_goog_nav clean_navbar_goog
    clean_googsht_nav junction_navbar_goog junction_googsht_nav
  have cVG := pyReplace_comm VER_MARKER version GOOG_MARKER get_google_shit
    hver hgoog hne hgoogsht clean_ver_goog clean_goog_ver hcg clean_googsht_ver
    hjg junction_googsht_ver
  unfold processText
  refine ⟨(cVG _).symm, ?_, ?_, ?_, ?_⟩
  · rw [← cNV s]
  · rw [← cNG (pyReplace s VER_MARKER version), ← cNV s]
  · rw [cNV (pyReplace s GOOG_MARKER get_google_shit), ← cVG s,
      ← cNG (pyReplace s VER_MARKER version), ← cNV s]
  · rw [← cVG s, ← cNG (pyReplace s VER_MARKER version), ← cNV s]

/-- Witness for the amended C8 with a well-formed concrete version string. -/
theorem substitution_order_commutes_amended_witness :
    ("2024-01-01 (abc1234)".toList ≠ ([] : List Char)) ∧
    CleanFor ("2024-01-01 (abc1234)".toList) NAV_MARKER ∧
    CleanFor ("2024-01-01 (abc1234)".toList) GOOG_MARKER ∧
    NoJunction ("2024-01-01 (abc1234)".toList) NAV_MARKER ∧
    NoJunction ("2024-01-01 (abc1234)".toList) GOOG_MARKER ∧
    pyReplace (pyReplace (pyReplace ("x <!-- BJ_TMPL_VERSION -->".toList)
        GOOG_MARKER get_google_shit) VER_MARKER ("2024-01-01 (abc1234)".toList))
      NAV_MARKER get_nav_bar =
      processText ("2024-01-01 (abc1234)".toList)
        ("x <!-- BJ_TMPL_VERSION -->".toList) := by
  refine ⟨by decide, by decide, by decide, by decide, by decide, ?_⟩
  exact (substitution_order_commutes_amended ("2024-01-01 (abc1234)".toList)
    (by decide) (by decide) (by decide) (by decide) (by decide)
    ("x <!-- BJ_TMPL_VERSION -->".toList)).2.2.2.2

end BJWeb
